import Mathlib

/-!
Verification development for the payload-email-sweego adapter
(src/index.ts).  The TypeScript source is shallowly embedded below:
JS strings are Lean `String`/`List Char`, JS `undefined`/`null` are
`Option`, thrown exceptions are `Except`, and the two address regexes
are embedded with their leftmost, greedy, dot-excludes-line-terminator
semantics.
-/

namespace SweegoAdapter

/-! ## JS string primitives -/

/-- Line terminators for the JS regex dot (`.` matches any character
except a line terminator): LF, CR, LS (U+2028), PS (U+2029). -/
def isLineTerm (c : Char) : Bool :=
  c = '\n' || c = '\r' || c.toNat = 0x2028 || c.toNat = 0x2029

/-- The character class removed by JS `String.prototype.trim`
(ECMAScript WhiteSpace plus LineTerminator).  The members beyond ASCII
are written by code point: NBSP, Ogham space, the U+2000..U+200A range,
LS, PS, NNBSP, MMSP, ideographic space and the BOM. -/
def jsWhitespace (c : Char) : Bool :=
  c = '\t' || c = '\n' || c = '\x0b' || c = '\x0c' || c = '\r' || c = ' ' ||
  c.toNat = 0xa0 || c.toNat = 0x1680 ||
  (0x2000 ≤ c.toNat && c.toNat ≤ 0x200a) ||
  c.toNat = 0x2028 || c.toNat = 0x2029 || c.toNat = 0x202f ||
  c.toNat = 0x205f || c.toNat = 0x3000 || c.toNat = 0xfeff

/-- JS `trim` on a character list: drop whitespace from both ends. -/
def jsTrim (cs : List Char) : List Char :=
  ((cs.dropWhile jsWhitespace).reverse.dropWhile jsWhitespace).reverse

/-- JS `s.trim()`. -/
def jsStrTrim (s : String) : String := ⟨jsTrim s.data⟩

/-- Index of the last occurrence of a character in a list. -/
def lastIdxOf (c : Char) : List Char → Option Nat
  | [] => none
  | a :: as =>
    match lastIdxOf c as with
    | some i => some (i + 1)
    | none => if a = c then some 0 else none

/-- Greedy match of `.*<(.*)>` inside one line-terminator-free segment:
the regex engine maximises the first `.*`, picking the last `<` that
still leaves a `>` to its right, then maximises `(.*)`, picking the last
`>`.  Returns the positions of the chosen `<` and `>`. -/
def segMatch (seg : List Char) : Option (Nat × Nat) :=
  match lastIdxOf '>' seg with
  | none => none
  | some gt =>
    match lastIdxOf '<' (seg.take gt) with
    | none => none
    | some lt => some (lt, gt)

/-- Replacement for `address.replace(/.*<(.*)>/, '$1')`: the match
(running from the segment start to the chosen `>`) is replaced by the
bracketed group. -/
def emailGroupRepl (seg : List Char) (ij : Nat × Nat) : List Char :=
  ((seg.take ij.2).drop (ij.1 + 1)) ++ seg.drop (ij.2 + 1)

/-- Replacement for `address.replace(/(.*)<.*>/, '$1')`: the match is
replaced by everything before the chosen `<`. -/
def nameGroupRepl (seg : List Char) (ij : Nat × Nat) : List Char :=
  seg.take ij.1 ++ seg.drop (ij.2 + 1)

/-- One-shot regex replace for the two patterns above.  A match cannot
cross a line terminator, so the engine in effect scans the
line-terminator-delimited segments left to right and rewrites the first
segment containing a `<` that precedes a `>`; all other text is kept.
`fuel` only drives the recursion and is instantiated with the list
length. -/
def regexReplAux (f : List Char → Nat × Nat → List Char) : Nat → List Char → List Char
  | 0, cs => cs
  | fuel + 1, cs =>
    match segMatch (cs.takeWhile fun c => !isLineTerm c) with
    | some ij =>
      f (cs.takeWhile fun c => !isLineTerm c) ij ++ cs.dropWhile (fun c => !isLineTerm c)
    | none =>
      match cs.dropWhile (fun c => !isLineTerm c) with
      | [] => cs
      | t :: tail =>
        (cs.takeWhile fun c => !isLineTerm c) ++ t :: regexReplAux f fuel tail

/-- Run a one-shot regex replace over a whole character list. -/
def runRegex (f : List Char → Nat × Nat → List Char) (cs : List Char) : List Char :=
  regexReplAux f cs.length cs

/-- JS `replaceAll(/^q|q$/g, '')`: remove one leading `q` if present,
then one trailing `q` from what remains. -/
def stripWrap (q : Char) (cs : List Char) : List Char :=
  let c1 := match cs with
    | c :: t => if c = q then t else cs
    | [] => ([] : List Char)
  match c1.reverse with
  | c :: t => if c = q then t.reverse else c1
  | [] => c1

/-- `extractEmailFromAddressString` from src/index.ts:
`address.trim().replace(/.*<(.*)>/, '$1').trim()`. -/
def extractEmailFromAddressString (address : String) : String :=
  ⟨jsTrim (runRegex emailGroupRepl (jsTrim address.data))⟩

/-- `extractNameFromAddressString` from src/index.ts:
`address.trim().replace(/(.*)<.*>/, '$1').trim()` followed by
stripping one layer of double quotes, trimming, stripping one layer of
single quotes and trimming.  `Char.ofNat 34` is the double quote and
`Char.ofNat 39` the single quote. -/
def extractNameFromAddressString (address : String) : String :=
  ⟨jsTrim (stripWrap (Char.ofNat 39)
    (jsTrim (stripWrap (Char.ofNat 34)
      (jsTrim (runRegex nameGroupRepl (jsTrim address.data))))))⟩

/-! ## Data model

`Option` models JS `undefined`/`null`; a JS value is falsy exactly when
it is `none` or an empty string (objects, arrays and buffers are always
truthy). -/

/-- The vendor-side address shape `{email, name?}`. -/
structure EmailAddress where
  email : String
  name : Option String
deriving DecidableEq, Repr

/-- A nodemailer structured address object `{address, name}`. -/
structure JAddr where
  address : String
  name : Option String
deriving DecidableEq, Repr

/-- One entry of `to`/`from`/reply-to lists: a plain string or a
structured object. -/
inductive AddrVal where
  | str (s : String)
  | obj (a : JAddr)
deriving DecidableEq, Repr

/-- `SendEmailOptions.to`-style input: absent, one value, or a list. -/
inductive AddrsInput where
  | absent
  | one (v : AddrVal)
  | many (l : List AddrVal)
deriving DecidableEq, Repr

/-- `SendEmailOptions.replyTo`: a string, an array, or an object. -/
inductive ReplyTo where
  | str (s : String)
  | arr (l : List AddrVal)
  | obj (a : JAddr)
deriving DecidableEq, Repr

/-- Attachment content: a JS string, a `Buffer` (byte list), or some
other (always-truthy) object such as a stream. -/
inductive AttContent where
  | str (s : String)
  | buf (bytes : List Nat)
  | other
deriving DecidableEq, Repr

/-- A host-supplied attachment; both fields may be missing at runtime. -/
structure AttachIn where
  filename : Option String
  content : Option AttContent
deriving DecidableEq, Repr

/-- A mapped wire attachment: filename plus binary content. -/
structure WireAttachment where
  filename : String
  content : List Nat
deriving DecidableEq, Repr

/-- One entry of the vendor error body `detail` list; `type` may be
JSON `null` (modelled `none`) and `msg` may be missing. -/
structure DetailEntry where
  msg : Option String
  type : Option String
deriving DecidableEq, Repr

/-- The vendor success body `{channel, provider, swg_uids,
transaction_id}`. -/
structure SweegoSuccessV where
  channel : String
  provider : String
  swg_uids : List (String × String)
  transaction_id : String
deriving DecidableEq, Repr

/-- An HTTP response as the adapter sees it: status, status text and
the JSON body under both casts the code performs (`SweegoSuccess` on
200, `SweegoError` otherwise). -/
structure HttpResponse where
  status : Nat
  statusText : String
  successBody : SweegoSuccessV
  detail : Option (List DetailEntry)
deriving DecidableEq, Repr

/-- A `Mail.Headers` value: a string, an array of strings, or some
other shape (dropped by the mapping). -/
inductive HeaderVal where
  | str (s : String)
  | arr (l : List String)
  | other
deriving DecidableEq, Repr

/-- The host message (`SendEmailOptions`).  `toAddrs` embeds the `to`
field and `fromAddress` the `from` field (`to` and `from` are Lean
keywords). -/
structure Message where
  toAddrs : AddrsInput := .absent
  fromAddress : Option AddrVal := none
  subject : Option String := none
  text : Option String := none
  html : Option String := none
  replyTo : Option ReplyTo := none
  headers : Option (List (String × HeaderVal)) := none
  attachments : Option (List AttachIn) := none
deriving DecidableEq, Repr

/-- The assembled `SweegoSendEmailOptions` wire payload.  `none` means
the optional key is absent from the JSON object.  `fromAddress` embeds
the `from` key and `dryRun` the `dry-run` key. -/
structure WirePayload where
  provider : String
  channel : String
  recipients : List EmailAddress
  fromAddress : EmailAddress
  subject : String
  attachments : Option (List WireAttachment) := none
  dryRun : Option Bool := none
  headers : Option (List (String × String)) := none
  messageTxt : Option String := none
  messageHtml : Option String := none
  reply_to : Option EmailAddress := none
deriving DecidableEq, Repr

/-- A failure raised while mapping the message: `api` embeds
`new APIError(message, status)`, `typeError` the JS `TypeError` thrown
when `.trim()` is called on `undefined`. -/
inductive MapError where
  | api (message : String) (status : Nat)
  | typeError
deriving DecidableEq, Repr

/-- Outcome of one `sendEmail` call. -/
inductive SendOutcome where
  | success (body : SweegoSuccessV)
  | thrown (message : String) (status : Nat)
  | jsTypeError
deriving DecidableEq, Repr

/-! ## UTF-8 (`Buffer.from(string)` and its decoding) -/

/-- UTF-8 encoding of one Unicode scalar value, as `Buffer.from`
performs it byte by byte. -/
def utf8EncodeChar (c : Char) : List Nat :=
  let n := c.toNat
  if n < 0x80 then [n]
  else if n < 0x800 then [0xc0 + n / 0x40, 0x80 + n % 0x40]
  else if n < 0x10000 then
    [0xe0 + n / 0x1000, 0x80 + (n / 0x40) % 0x40, 0x80 + n % 0x40]
  else
    [0xf0 + n / 0x40000, 0x80 + (n / 0x1000) % 0x40, 0x80 + (n / 0x40) % 0x40,
     0x80 + n % 0x40]

/-- UTF-8 encoding of a whole string. -/
def utf8Encode (s : String) : List Nat :=
  (s.data.map utf8EncodeChar).flatten

-- A validating UTF-8 decoder (rejects overlong forms, surrogates and
-- out-of-range code points), split into one helper per sequence length
-- so every definition is a small match.
mutual

/-- Decode a UTF-8 byte list to the code points it denotes. -/
def utf8DecodeAux : List Nat → Option (List Char)
  | [] => some []
  | b0 :: bs =>
    if b0 < 0x80 then (utf8DecodeAux bs).map (Char.ofNat b0 :: ·)
    else if b0 < 0xc2 then none
    else if b0 < 0xe0 then utf8Dec2 b0 bs
    else if b0 < 0xf0 then utf8Dec3 b0 bs
    else if b0 < 0xf5 then utf8Dec4 b0 bs
    else none
  termination_by cs => cs.length

/-- Continuation byte plus tail for a two-byte sequence. -/
def utf8Dec2 (b0 : Nat) : List Nat → Option (List Char)
  | b1 :: bs =>
    if 0x80 ≤ b1 ∧ b1 < 0xc0 then
      (utf8DecodeAux bs).map (Char.ofNat ((b0 - 0xc0) * 0x40 + (b1 - 0x80)) :: ·)
    else none
  | [] => none
  termination_by bs => bs.length

/-- Continuation bytes plus tail for a three-byte sequence. -/
def utf8Dec3 (b0 : Nat) : List Nat → Option (List Char)
  | b1 :: b2 :: bs =>
    if (0x80 ≤ b1 ∧ b1 < 0xc0) ∧ (0x80 ≤ b2 ∧ b2 < 0xc0) ∧
        0x800 ≤ (b0 - 0xe0) * 0x1000 + (b1 - 0x80) * 0x40 + (b2 - 0x80) ∧
        ¬(0xd800 ≤ (b0 - 0xe0) * 0x1000 + (b1 - 0x80) * 0x40 + (b2 - 0x80) ∧
          (b0 - 0xe0) * 0x1000 + (b1 - 0x80) * 0x40 + (b2 - 0x80) < 0xe000) then
      (utf8DecodeAux bs).map
        (Char.ofNat ((b0 - 0xe0) * 0x1000 + (b1 - 0x80) * 0x40 + (b2 - 0x80)) :: ·)
    else none
  | _ => none
  termination_by bs => bs.length

/-- Continuation bytes plus tail for a four-byte sequence. -/
def utf8Dec4 (b0 : Nat) : List Nat → Option (List Char)
  | b1 :: b2 :: b3 :: bs =>
    if (0x80 ≤ b1 ∧ b1 < 0xc0) ∧ (0x80 ≤ b2 ∧ b2 < 0xc0) ∧ (0x80 ≤ b3 ∧ b3 < 0xc0) ∧
        0x10000 ≤ (b0 - 0xf0) * 0x40000 + (b1 - 0x80) * 0x1000 + (b2 - 0x80) * 0x40 + (b3 - 0x80) ∧
        (b0 - 0xf0) * 0x40000 + (b1 - 0x80) * 0x1000 + (b2 - 0x80) * 0x40 + (b3 - 0x80) < 0x110000 then
      (utf8DecodeAux bs).map
        (Char.ofNat ((b0 - 0xf0) * 0x40000 + (b1 - 0x80) * 0x1000 + (b2 - 0x80) * 0x40 + (b3 - 0x80)) :: ·)
    else none
  | _ => none
  termination_by bs => bs.length

end

/-- Decode a byte list back to a string. -/
def utf8DecodeString (bs : List Nat) : Option String :=
  (utf8DecodeAux bs).map fun cs => ⟨cs⟩

/-! ## Mapping functions (the Message Normalizer) -/

/-- Parsing of one address string, shared by every string branch of the
mapping: email via `extractEmailFromAddressString`, name omitted when
`extractNameFromAddressString` made no change. -/
def parseAddrString (s : String) : EmailAddress :=
  { email := extractEmailFromAddressString s
    name :=
      if extractNameFromAddressString s = s then none
      else some (extractNameFromAddressString s) }

/-- Normalisation of one structured address object: email via
`extractEmailFromAddressString(address)`, name dropped when it equals
the raw address. -/
def mapObjAddr (a : JAddr) : EmailAddress :=
  { email := extractEmailFromAddressString a.address
    name := if a.name = some a.address then none else a.name }

/-- One element of an address array (`typeof address === 'string'`
check in the `Array.isArray` branch of `mapAddresses`). -/
def mapAddrVal : AddrVal → EmailAddress
  | .str s => parseAddrString s
  | .obj a => mapObjAddr a

/-- `mapAddresses` from src/index.ts.  `!addresses` is true for an
absent value and for the empty string; arrays and objects are truthy. -/
def mapAddresses : AddrsInput → List EmailAddress
  | .absent => []
  | .one (.str s) => if s = "" then [] else [parseAddrString s]
  | .one (.obj a) => [mapObjAddr a]
  | .many l => l.map mapAddrVal

/-- `mapFromAddress` from src/index.ts (argument order as in the
source: address, defaultFromName, defaultFromAddress). -/
def mapFromAddress (address : Option AddrVal) (defaultFromName defaultFromAddress : String) :
    EmailAddress :=
  match address with
  | none => { email := defaultFromAddress, name := some defaultFromName }
  | some (.str s) =>
    if s = "" then { email := defaultFromAddress, name := some defaultFromName }
    else parseAddrString s
  | some (.obj a) => mapObjAddr a

/-- The body of `attachments.map(...)` in `mapAttachments`: throws
`APIError('Attachment is missing filename or content', 400)` when
either field is falsy, encodes string content with `Buffer.from`
(UTF-8), passes `Buffer` content through, and throws
`APIError('Attachment content must be a string or a buffer', 400)` for
anything else. -/
def mapOneAttachment (a : AttachIn) : Except MapError WireAttachment :=
  match a.filename, a.content with
  | some fn, some c =>
    if fn = "" then .error (.api ("Attachment is missing filename or content") 400)
    else
      match c with
      | .str s =>
        if s = "" then .error (.api ("Attachment is missing filename or content") 400)
        else .ok { filename := fn, content := utf8Encode s }
      | .buf b => .ok { filename := fn, content := b }
      | .other => .error (.api ("Attachment content must be a string or a buffer") 400)
  | _, _ => .error (.api ("Attachment is missing filename or content") 400)

/-- `Array.prototype.map` with a throwing callback: the first throw
aborts the whole map. -/
def mapAttachList : List AttachIn → Except MapError (List WireAttachment)
  | [] => .ok []
  | a :: as =>
    match mapOneAttachment a with
    | .error e => .error e
    | .ok w =>
      match mapAttachList as with
      | .error e => .error e
      | .ok ws => .ok (w :: ws)

/-- `mapAttachments` from src/index.ts: `undefined` stays `undefined`,
otherwise map each attachment (an empty array maps to an empty
array). -/
def mapAttachments : Option (List AttachIn) → Except MapError (Option (List WireAttachment))
  | none => .ok none
  | some l =>
    match mapAttachList l with
    | .error e => .error e
    | .ok ws => .ok (some ws)

/-- `messageHeadersToSweegoHeaders` from src/index.ts: keep string
values, join array values with a comma and space, drop the rest. -/
def messageHeadersToSweegoHeaders (headers : List (String × HeaderVal)) :
    List (String × String) :=
  headers.filterMap fun kv =>
    match kv.2 with
    | .str s => some (kv.1, s)
    | .arr l => some (kv.1, String.intercalate (", ") l)
    | .other => none

/-- The reply-to block of `mapPayloadEmailToSweegoEmail` (only reached
for a truthy `message.replyTo`).  The source compares the VALUE with
the literal string `'string'` (`message.replyTo === 'string'`), so only
the five-character string "string" takes the string-parsing branch;
`Array.isArray` catches arrays; every other value (including every
other plain string) is treated as a structured address, and for a plain
string `.address` is `undefined`, making `extractEmailFromAddressString`
call `.trim()` on `undefined` — a thrown `TypeError`. -/
def applyReplyTo (rt : ReplyTo) (p : WirePayload) : Except MapError WirePayload :=
  match rt with
  | .str s =>
    if s = ("string") then .ok { p with reply_to := some (parseAddrString s) }
    else .error .typeError
  | .arr l =>
    match (mapAddresses (.many l)) with
    | [] => .ok p
    | x :: _ => .ok { p with reply_to := some x }
  | .obj a =>
    let addr : EmailAddress :=
      { email := extractEmailFromAddressString a.address
        name := if a.name = some a.address then none else a.name }
    .ok { p with reply_to := some addr }

/-- `mapPayloadEmailToSweegoEmail` from src/index.ts: attachments are
mapped first (their errors abort everything), then the required fields
are assembled, then the optional keys are added under the source's
truthiness guards, then the reply-to block runs. -/
def mapPayloadEmailToSweegoEmail (message : Message)
    (defaultFromAddress defaultFromName : String) (dryRun : Bool) :
    Except MapError WirePayload :=
  match mapAttachments message.attachments with
  | .error e => .error e
  | .ok attachments =>
    let email : WirePayload :=
      { provider := ("sweego")
        channel := ("email")
        recipients := mapAddresses message.toAddrs
        fromAddress := mapFromAddress message.fromAddress defaultFromName defaultFromAddress
        subject := message.subject.getD ("")
        attachments :=
          match attachments with
          | some l => if l.isEmpty then none else some l
          | none => none }
    let email := if dryRun then { email with dryRun := some true } else email
    let email :=
      match message.headers with
      | some hs => { email with headers := some (messageHeadersToSweegoHeaders hs) }
      | none => email
    let email :=
      match message.text with
      | some t => if t = "" then email else { email with messageTxt := some t }
      | none => email
    let email :=
      match message.html with
      | some t => if t = "" then email else { email with messageHtml := some t }
      | none => email
    match message.replyTo with
    | none => .ok email
    | some rt => if rt = .str ("") then .ok email else applyReplyTo rt email

/-! ## Transport and error formatting -/

/-- JS truthiness of an optional string: present and non-empty. -/
def optTruthy : Option String → Bool
  | none => false
  | some s => s ≠ ""

/-- The `forEach` loop of the non-200 branch of `sendEmail`: for each
detail entry with truthy `type` and `msg`, append a separator chosen by
the entry's index in the ORIGINAL list (a space for index 0, `"; "`
otherwise), the `Type:` segment unless `type` is the literal string
"null", and the `Message:` segment. -/
def formatDetails (acc : String) (idx : Nat) : List DetailEntry → String
  | [] => acc
  | e :: es =>
    formatDetails
      (if optTruthy e.type ∧ optTruthy e.msg then
        acc ++ (if idx ≠ 0 then ("; ") else (" ")) ++
          (if e.type ≠ some ("null") then ("Type: \"") ++ e.type.getD ("") ++ ("\", ") else "") ++
          ("Message: \"") ++ e.msg.getD ("") ++ ("\"")
      else acc)
      (idx + 1) es

/-- The full error message built by the non-200 branch:
`Error sending email: <status> <statusText>.` plus the detail loop over
`data.detail || []`. -/
def sweegoFormatError (status : Nat) (statusText : String)
    (detail : Option (List DetailEntry)) : String :=
  formatDetails
    (("Error sending email: ") ++ toString status ++ (" ") ++ statusText ++ ("."))
    0 (detail.getD [])

/-- Lift a mapping failure to a send outcome. -/
def errToOutcome : MapError → SendOutcome
  | .api m s => .thrown m s
  | .typeError => .jsTypeError

/-- `sendEmail` from src/index.ts for one HTTP exchange: the payload is
assembled first (a mapping failure aborts the call before any network
I/O), then the POST is made and the response classified by status.  The
first component is the JSON body actually POSTed (`none` when no
request was issued). -/
def sendEmailModel (defaultFromAddress defaultFromName : String) (dryRun : Bool)
    (msg : Message) (resp : HttpResponse) : Option WirePayload × SendOutcome :=
  match mapPayloadEmailToSweegoEmail msg defaultFromAddress defaultFromName dryRun with
  | .error e => (none, errToOutcome e)
  | .ok p =>
    (some p,
      if resp.status = 200 then .success resp.successBody
      else .thrown (sweegoFormatError resp.status resp.statusText resp.detail) resp.status)

/-- Specification-side rendering of the non-200 error message, written
from the (amended) spec wording: the base text, then one segment per
detail entry having both a non-empty `type` and a non-empty `msg` — a
single leading space when the entry sits at index 0 of the detail list,
`"; "` otherwise, then `Type: "<type>", ` unless the type is the
literal string "null", then `Message: "<msg>"`. -/
def specErrorSegment (idx : Nat) (e : DetailEntry) : String :=
  (if idx = 0 then (" ") else ("; ")) ++
    (if e.type = some ("null") then "" else ("Type: \"") ++ e.type.getD ("") ++ ("\", ")) ++
    ("Message: \"") ++ e.msg.getD ("") ++ ("\"")

/-- Specification-side tail of the error message: concatenation of the
segments of all qualifying entries, indexed from `idx`. -/
def specErrorTail (idx : Nat) : List DetailEntry → String
  | [] => ""
  | e :: es =>
    (if optTruthy e.type ∧ optTruthy e.msg then specErrorSegment idx e else "") ++
      specErrorTail (idx + 1) es

/-- Specification-side full error message. -/
def specErrorMessage (status : Nat) (statusText : String)
    (detail : List DetailEntry) : String :=
  ("Error sending email: ") ++ toString status ++ (" ") ++ statusText ++ (".") ++
    specErrorTail 0 detail

/-! ## Helper lemmas -/

theorem lastIdxOf_eq_none {c : Char} : ∀ {l : List Char}, c ∉ l → lastIdxOf c l = none
  | [], _ => rfl
  | a :: as, h => by
    have has : c ∉ as := fun hm => h (List.mem_cons_of_mem a hm)
    have hne : a ≠ c := fun he => h (he ▸ List.mem_cons_self a as)
    simp [lastIdxOf, lastIdxOf_eq_none has, hne]

theorem lastIdxOf_append_last {c : Char} {ys : List Char} (hys : c ∉ ys) :
    ∀ (xs : List Char), lastIdxOf c (xs ++ c :: ys) = some xs.length
  | [] => by simp [lastIdxOf, lastIdxOf_eq_none hys]
  | a :: xs => by
    simp [lastIdxOf, lastIdxOf_append_last hys xs]

theorem mem_of_mem_takeWhile {p : Char → Bool} {l : List Char} {a : Char}
    (h : a ∈ l.takeWhile p) : a ∈ l :=
  (List.takeWhile_sublist p).subset h

theorem mem_of_mem_dropWhile {p : Char → Bool} {l : List Char} {a : Char}
    (h : a ∈ l.dropWhile p) : a ∈ l :=
  (List.dropWhile_sublist p).subset h

theorem mem_of_mem_take {n : Nat} {l : List Char} {a : Char}
    (h : a ∈ l.take n) : a ∈ l :=
  (List.take_sublist n l).subset h

theorem mem_of_mem_jsTrim {l : List Char} {a : Char} (h : a ∈ jsTrim l) : a ∈ l := by
  unfold jsTrim at h
  rw [List.mem_reverse] at h
  exact mem_of_mem_dropWhile (by rw [← List.mem_reverse]; exact mem_of_mem_dropWhile h)

theorem segMatch_eq_none {seg : List Char} (h : '<' ∉ seg) : segMatch seg = none := by
  unfold segMatch
  cases hgt : lastIdxOf '>' seg with
  | none => rfl
  | some gt =>
    have hlt : '<' ∉ seg.take gt := fun hm => h (mem_of_mem_take hm)
    simp [lastIdxOf_eq_none hlt]

theorem regexReplAux_no_lt (f : List Char → Nat × Nat → List Char) :
    ∀ (fuel : Nat) (cs : List Char), '<' ∉ cs → regexReplAux f fuel cs = cs
  | 0, cs, _ => rfl
  | fuel + 1, cs, h => by
    have hseg : segMatch (cs.takeWhile fun c => !isLineTerm c) = none :=
      segMatch_eq_none fun hm => h (mem_of_mem_takeWhile hm)
    rw [regexReplAux, hseg]
    cases hdw : cs.dropWhile (fun c => !isLineTerm c) with
    | nil => rfl
    | cons t tail =>
      have htail : '<' ∉ tail := fun hm =>
        h (mem_of_mem_dropWhile (hdw ▸ List.mem_cons_of_mem t hm))
      show (cs.takeWhile fun c => !isLineTerm c) ++ t :: regexReplAux f fuel tail = cs
      rw [regexReplAux_no_lt f fuel tail htail]
      conv_rhs =>
        rw [← List.takeWhile_append_dropWhile (p := fun c => !isLineTerm c) (l := cs), hdw]

theorem runRegex_no_lt (f : List Char → Nat × Nat → List Char) (cs : List Char)
    (h : '<' ∉ cs) : runRegex f cs = cs :=
  regexReplAux_no_lt f cs.length cs h

theorem dropWhile_head_false {p : Char → Bool} {c : Char} {t : List Char} :
    ∀ {l : List Char}, l.dropWhile p = c :: t → p c = false := by
  intro l
  induction l with
  | nil => intro h; simp at h
  | cons a as ih =>
    intro h
    rw [List.dropWhile_cons] at h
    by_cases ha : p a
    · rw [if_pos ha] at h
      exact ih h
    · rw [if_neg ha] at h
      injection h with h1 _
      subst h1
      simpa using ha

theorem dropWhile_dropWhile (p : Char → Bool) (l : List Char) :
    (l.dropWhile p).dropWhile p = l.dropWhile p := by
  cases hdw : l.dropWhile p with
  | nil => rfl
  | cons c t =>
    rw [List.dropWhile_cons, if_neg]
    rw [dropWhile_head_false hdw]
    simp

/-- The right-trim half of `jsTrim`. -/
def trimEnd (cs : List Char) : List Char :=
  (cs.reverse.dropWhile jsWhitespace).reverse

theorem jsTrim_eq_trimEnd (l : List Char) :
    jsTrim l = trimEnd (l.dropWhile jsWhitespace) := rfl

theorem trimEnd_trimEnd (l : List Char) : trimEnd (trimEnd l) = trimEnd l := by
  unfold trimEnd
  rw [List.reverse_reverse, dropWhile_dropWhile]

/-- `trimEnd` only removes a suffix. -/
theorem trimEnd_append (l : List Char) :
    trimEnd l ++ (l.reverse.takeWhile jsWhitespace).reverse = l := by
  unfold trimEnd
  rw [← List.reverse_append, List.takeWhile_append_dropWhile, List.reverse_reverse]

theorem jsTrim_idem (l : List Char) : jsTrim (jsTrim l) = jsTrim l := by
  rw [jsTrim_eq_trimEnd l]
  set x := l.dropWhile jsWhitespace with hx
  rw [jsTrim_eq_trimEnd]
  have hds : (trimEnd x).dropWhile jsWhitespace = trimEnd x := by
    cases hy : trimEnd x with
    | nil => rfl
    | cons c t =>
      have hxc : ∃ z, x = c :: (t ++ z) := by
        refine ⟨(x.reverse.takeWhile jsWhitespace).reverse, ?_⟩
        have := trimEnd_append x
        rw [hy] at this
        simpa using this.symm
      obtain ⟨z, hz⟩ := hxc
      have hc : jsWhitespace c = false := dropWhile_head_false (hx.symm.trans hz)
      rw [List.dropWhile_cons, if_neg (by rw [hc]; simp)]
  rw [hds, trimEnd_trimEnd]

/-- With no `<` anywhere, neither regex can match, so both extract
functions reduce to a double trim. -/
theorem extractEmail_no_brackets (s : String) (h : '<' ∉ s.data) :
    extractEmailFromAddressString s = jsStrTrim s := by
  unfold extractEmailFromAddressString jsStrTrim
  rw [runRegex_no_lt _ _ (fun hm => h (mem_of_mem_jsTrim hm)), jsTrim_idem]

theorem segMatch_decomp (a g t : List Char) (hg1 : '<' ∉ g) (ht : '>' ∉ t) :
    segMatch (a ++ '<' :: (g ++ '>' :: t)) = some (a.length, a.length + 1 + g.length) := by
  unfold segMatch
  have hassoc : (a ++ '<' :: g) ++ '>' :: t = a ++ '<' :: (g ++ '>' :: t) := by simp
  have hgt : lastIdxOf '>' (a ++ '<' :: (g ++ '>' :: t)) = some (a.length + 1 + g.length) := by
    have h1 := lastIdxOf_append_last (c := '>') ht (a ++ '<' :: g)
    rw [hassoc] at h1
    rw [h1]
    congr 1
    simp
    omega
  rw [hgt]
  have htake : (a ++ '<' :: (g ++ '>' :: t)).take (a.length + 1 + g.length) = a ++ '<' :: g := by
    rw [← hassoc, show a.length + 1 + g.length = (a ++ '<' :: g).length by simp; omega]
    exact List.take_left _ _
  simp [htake, lastIdxOf_append_last hg1 a]

/-- When the whole input lies in one line-terminator-free segment and
the regex matches, one step of the engine applies the replacement. -/
theorem regexReplAux_match (f : List Char → Nat × Nat → List Char) (fuel : Nat)
    (cs : List Char) (hterm : ∀ c ∈ cs, isLineTerm c = false) (ij : Nat × Nat)
    (hm : segMatch cs = some ij) : regexReplAux f (fuel + 1) cs = f cs ij := by
  have htw : cs.takeWhile (fun c => !isLineTerm c) = cs :=
    List.takeWhile_eq_self_iff.mpr (by intro x hx; simp [hterm x hx])
  have hdw : cs.dropWhile (fun c => !isLineTerm c) = [] :=
    List.dropWhile_eq_nil_iff.mpr (by intro x hx; simp [hterm x hx])
  rw [regexReplAux, htw, hm]
  simp [hdw]

/-- The greedy replace on a string of the shape
`a ++ '<' :: g ++ '>' :: t` (last bracket pair shown explicitly, no
line terminators) keeps the group and the text after the `>`. -/
theorem extractEmail_lastGroup (s : String) (a g t : List Char)
    (hdecomp : jsTrim s.data = a ++ '<' :: (g ++ '>' :: t))
    (hterm : ∀ c ∈ jsTrim s.data, isLineTerm c = false)
    (hg1 : '<' ∉ g) (ht : '>' ∉ t) :
    extractEmailFromAddressString s = ⟨jsTrim (g ++ t)⟩ := by
  unfold extractEmailFromAddressString runRegex
  rw [hdecomp] at hterm ⊢
  have hm := segMatch_decomp a g t hg1 ht
  cases hL : (a ++ '<' :: (g ++ '>' :: t)).length with
  | zero => simp at hL
  | succ nfuel =>
    rw [regexReplAux_match _ nfuel _ hterm _ hm]
    have htake : (a ++ '<' :: (g ++ '>' :: t)).take (a.length + 1 + g.length) = a ++ '<' :: g := by
      rw [show a ++ '<' :: (g ++ '>' :: t) = (a ++ '<' :: g) ++ '>' :: t by simp]
      rw [show a.length + 1 + g.length = (a ++ '<' :: g).length by simp; omega]
      exact List.take_left _ _
    have hdropg : (a ++ '<' :: g).drop (a.length + 1) = g := by
      rw [show a ++ '<' :: g = (a ++ ['<']) ++ g by simp,
        show a.length + 1 = (a ++ ['<']).length by simp]
      exact List.drop_left _ _
    have hdropt : (a ++ '<' :: (g ++ '>' :: t)).drop (a.length + 1 + g.length + 1) = t := by
      rw [show a ++ '<' :: (g ++ '>' :: t) = (a ++ '<' :: g ++ ['>']) ++ t by simp,
        show a.length + 1 + g.length + 1 = (a ++ '<' :: g ++ ['>']).length by simp; omega]
      exact List.drop_left _ _
    show String.mk (jsTrim
      ((((a ++ '<' :: (g ++ '>' :: t)).take (a.length + 1 + g.length)).drop (a.length + 1)) ++
        (a ++ '<' :: (g ++ '>' :: t)).drop (a.length + 1 + g.length + 1))) =
      String.mk (jsTrim (g ++ t))
    rw [htake, hdropg, hdropt]

/-! ## UTF-8 round trip -/

theorem utf8DecodeAux_encodeChar (c : Char) (tail : List Nat) :
    utf8DecodeAux (utf8EncodeChar c ++ tail) = (utf8DecodeAux tail).map (c :: ·) := by
  have hvalid : c.toNat < 0xd800 ∨ (0xdfff < c.toNat ∧ c.toNat < 0x110000) := c.valid
  have hc : Char.ofNat c.toNat = c := Char.ofNat_toNat c
  set n := c.toNat with hn
  unfold utf8EncodeChar
  rw [← hn]
  by_cases h1 : n < 0x80
  · rw [if_pos h1]
    simp only [List.cons_append, List.nil_append, utf8DecodeAux]
    rw [if_pos h1, hc]
  · by_cases h2 : n < 0x800
    · rw [if_neg h1, if_pos h2]
      simp only [List.cons_append, List.nil_append, utf8DecodeAux]
      rw [if_neg (by omega), if_neg (by omega), if_pos (by omega)]
      simp only [utf8Dec2]
      rw [if_pos (by omega)]
      rw [show (0xc0 + n / 0x40 - 0xc0) * 0x40 + (0x80 + n % 0x40 - 0x80) = n by omega, hc]
    · by_cases h3 : n < 0x10000
      · rw [if_neg h1, if_neg h2, if_pos h3]
        simp only [List.cons_append, List.nil_append, utf8DecodeAux]
        rw [if_neg (by omega), if_neg (by omega), if_neg (by omega), if_pos (by omega)]
        simp only [utf8Dec3]
        rw [if_pos (by omega)]
        rw [show (0xe0 + n / 0x1000 - 0xe0) * 0x1000 + (0x80 + n / 0x40 % 0x40 - 0x80) * 0x40 +
          (0x80 + n % 0x40 - 0x80) = n by omega, hc]
      · rw [if_neg h1, if_neg h2, if_neg h3]
        simp only [List.cons_append, List.nil_append, utf8DecodeAux]
        rw [if_neg (by omega), if_neg (by omega), if_neg (by omega), if_neg (by omega),
          if_pos (by omega)]
        simp only [utf8Dec4]
        rw [if_pos (by omega)]
        rw [show (0xf0 + n / 0x40000 - 0xf0) * 0x40000 + (0x80 + n / 0x1000 % 0x40 - 0x80) * 0x1000 +
          (0x80 + n / 0x40 % 0x40 - 0x80) * 0x40 + (0x80 + n % 0x40 - 0x80) = n by omega, hc]

theorem utf8_roundtrip_list : ∀ cs : List Char,
    utf8DecodeAux ((cs.map utf8EncodeChar).flatten) = some cs
  | [] => by simp [utf8DecodeAux]
  | c :: cs => by
    simp only [List.map_cons, List.flatten_cons]
    rw [utf8DecodeAux_encodeChar, utf8_roundtrip_list cs]
    rfl

/-- Encoding a string with `Buffer.from` and decoding the bytes again
yields the original string. -/
theorem utf8_roundtrip (s : String) : utf8DecodeString (utf8Encode s) = some s := by
  unfold utf8DecodeString utf8Encode
  rw [utf8_roundtrip_list]
  rfl

/-! ## Error-format, attachment and payload lemmas -/

theorem formatDetails_spec : ∀ (es : List DetailEntry) (acc : String) (idx : Nat),
    formatDetails acc idx es = acc ++ specErrorTail idx es
  | [], acc, idx => by
    rw [formatDetails, specErrorTail, String.append_empty]
  | e :: es, acc, idx => by
    rw [formatDetails, specErrorTail, formatDetails_spec es]
    by_cases hq : optTruthy e.type ∧ optTruthy e.msg
    · rw [if_pos hq, if_pos hq]
      unfold specErrorSegment
      by_cases h0 : idx = 0 <;> by_cases ht : e.type = some ("null") <;>
        simp [h0, ht, String.append_assoc]
    · rw [if_neg hq, if_neg hq]
      simp [String.append_assoc]

theorem sweegoFormatError_spec (status : Nat) (statusText : String)
    (detail : Option (List DetailEntry)) :
    sweegoFormatError status statusText detail =
      specErrorMessage status statusText (detail.getD []) := by
  unfold sweegoFormatError specErrorMessage
  rw [formatDetails_spec, String.append_assoc, String.append_assoc, String.append_assoc,
    String.append_assoc]

theorem mapOneAttachment_error_shape (a : AttachIn) (e : MapError)
    (h : mapOneAttachment a = .error e) :
    ∃ m, e = .api m 400 ∧
      (m = ("Attachment is missing filename or content") ∨
        m = ("Attachment content must be a string or a buffer")) := by
  unfold mapOneAttachment at h
  repeat' split at h
  all_goals first
    | (cases h; exact ⟨_, rfl, by first | exact Or.inl rfl | exact Or.inr rfl⟩)
    | simp at h

theorem mapOneAttachment_bad (a : AttachIn)
    (hbad : a.filename = none ∨ a.content = none ∨ a.content = some .other) :
    ∃ m, mapOneAttachment a = .error (.api m 400) := by
  rcases a with ⟨fn, c⟩
  rcases hbad with h | h | h
  · simp only at h
    subst h
    cases c <;> exact ⟨_, rfl⟩
  · simp only at h
    subst h
    cases fn <;> exact ⟨_, rfl⟩
  · simp only at h
    subst h
    cases fn with
    | none => exact ⟨_, rfl⟩
    | some f =>
      by_cases hf : f = ""
      · exact ⟨_, by dsimp only [mapOneAttachment]; rw [if_pos hf]⟩
      · exact ⟨_, by dsimp only [mapOneAttachment]; rw [if_neg hf]⟩

theorem mapAttachList_bad : ∀ (l : List AttachIn),
    (∃ a ∈ l, a.filename = none ∨ a.content = none ∨ a.content = some .other) →
    ∃ m, mapAttachList l = .error (.api m 400) ∧
      (m = ("Attachment is missing filename or content") ∨
        m = ("Attachment content must be a string or a buffer"))
  | [], h => absurd h (by simp)
  | a :: as, h => by
    cases hma : mapOneAttachment a with
    | error e =>
      obtain ⟨m, hm, hd⟩ := mapOneAttachment_error_shape a e hma
      refine ⟨m, ?_, hd⟩
      rw [mapAttachList, hma, hm]
    | ok w =>
      have hbad : ∃ b ∈ as, b.filename = none ∨ b.content = none ∨ b.content = some .other := by
        rcases h with ⟨b, hb, hbadb⟩
        rcases List.mem_cons.mp hb with rfl | hmem
        · obtain ⟨m, hm⟩ := mapOneAttachment_bad b hbadb
          exact absurd (hma.symm.trans hm) (by simp)
        · exact ⟨b, hmem, hbadb⟩
      obtain ⟨m, hm, hd⟩ := mapAttachList_bad as hbad
      refine ⟨m, ?_, hd⟩
      rw [mapAttachList, hma, hm]

theorem mapPayload_error_of_attachments (msg : Message) (dfa dfn : String) (dry : Bool)
    (e : MapError) (h : mapAttachments msg.attachments = .error e) :
    mapPayloadEmailToSweegoEmail msg dfa dfn dry = .error e := by
  unfold mapPayloadEmailToSweegoEmail
  rw [h]

theorem applyReplyTo_fromAddress (rt : ReplyTo) (p q : WirePayload)
    (h : applyReplyTo rt p = .ok q) : q.fromAddress = p.fromAddress := by
  rcases rt with s | l | a <;> simp only [applyReplyTo] at h
  · split at h
    · cases h; rfl
    · simp at h
  · split at h
    · cases h; rfl
    · cases h; rfl
  · cases h; rfl

theorem mapPayload_from (msg : Message) (dfa dfn : String) (dry : Bool) (p : WirePayload)
    (hok : mapPayloadEmailToSweegoEmail msg dfa dfn dry = .ok p) :
    p.fromAddress = mapFromAddress msg.fromAddress dfn dfa := by
  unfold mapPayloadEmailToSweegoEmail at hok
  cases hatt : mapAttachments msg.attachments with
  | error e => rw [hatt] at hok; simp at hok
  | ok att =>
    rw [hatt] at hok
    dsimp only at hok
    split at hok
    · cases hok
      repeat' split
      all_goals rfl
    · split at hok
      · cases hok
        repeat' split
        all_goals rfl
      · rw [applyReplyTo_fromAddress _ _ _ hok]
        repeat' split
        all_goals rfl

/-! ## Claim theorems -/

/-- C1 counterexample: the separator before an appended detail segment
is chosen by the entry's index in the ORIGINAL detail list, not by
whether it is the first APPENDED segment.  With entry 0 skipped
(missing msg) and entry 1 qualifying, the code emits `"; "` where the
claim predicts a single leading space. -/
theorem c1_counterexample :
    (sendEmailModel ("d@x.y") ("D") false {}
        { status := 422, statusText := ("Unprocessable Entity")
          successBody := { channel := (""), provider := (""), swg_uids := [], transaction_id := ("") }
          detail := some [{ msg := none, type := some ("x") },
            { msg := ("bad field"), type := some ("validation_error") }] }).2 =
      .thrown ("Error sending email: 422 Unprocessable Entity.; Type: \"validation_error\", Message: \"bad field\"") 422 ∧
    ("Error sending email: 422 Unprocessable Entity.; Type: \"validation_error\", Message: \"bad field\"" : String) ≠
      ("Error sending email: 422 Unprocessable Entity. Type: \"validation_error\", Message: \"bad field\"") := by
  constructor
  · rfl
  · decide

/-- C1 (amended): for every non-200 response reached after a successful
mapping, `sendEmail` fails with the HTTP status as status code and with
the message formed from the base text plus one segment per detail entry
having both a non-empty `type` and a non-empty `msg`: the separator is
a single space when the entry sits at INDEX 0 of the original detail
list and `"; "` otherwise (not "first appended entry"), the
`Type: "<type>", ` segment is omitted when the type is the literal
string "null", and entries missing either field contribute nothing.
The 422 scenario from the spec is reproduced verbatim. -/
theorem c1_amended :
    (∀ (dfa dfn : String) (dry : Bool) (msg : Message) (resp : HttpResponse) (p : WirePayload),
      mapPayloadEmailToSweegoEmail msg dfa dfn dry = .ok p → resp.status ≠ 200 →
      (sendEmailModel dfa dfn dry msg resp).2 =
        .thrown (specErrorMessage resp.status resp.statusText (resp.detail.getD [])) resp.status) ∧
    sweegoFormatError 422 ("Unprocessable Entity")
        (some [{ msg := some ("bad field"), type := some ("validation_error") }]) =
      ("Error sending email: 422 Unprocessable Entity. Type: \"validation_error\", Message: \"bad field\"") := by
  constructor
  · intro dfa dfn dry msg resp p hok hstat
    unfold sendEmailModel
    rw [hok]
    dsimp only
    rw [if_neg hstat, sweegoFormatError_spec]
  · rfl

/-- C1 witness: the amended theorem applied to a concrete 500 response
with an empty body. -/
theorem c1_witness :
    (sendEmailModel ("d@x.y") ("D") false {}
        { status := 500, statusText := ("Internal Server Error")
          successBody := { channel := (""), provider := (""), swg_uids := [], transaction_id := ("") }
          detail := none }).2 =
      .thrown ("Error sending email: 500 Internal Server Error.") 500 := by
  have h := c1_amended.1 ("d@x.y") ("D") false {}
    { status := 500, statusText := ("Internal Server Error")
      successBody := { channel := (""), provider := (""), swg_uids := [], transaction_id := ("") }
      detail := none }
    { provider := ("sweego"), channel := ("email"), recipients := []
      fromAddress := { email := ("d@x.y"), name := some ("D") }, subject := ("") }
    (by rfl) (by decide)
  exact h.trans (by rfl)

/-- C2: the code compares the reply-to VALUE with the literal string
"string" (`message.replyTo === 'string'`), so a plain-string reply-to
such as "hello@example.com" falls into the structured-address branch,
reads `.address` of a string (undefined) and crashes with a TypeError
instead of being parsed with extractEmail/extractName; only the literal
string "string" takes the parsing branch. -/
theorem c2_replyTo_string_crash :
    mapPayloadEmailToSweegoEmail { replyTo := some (.str ("hello@example.com")) }
        ("default@x.y") ("Default") false = .error .typeError ∧
    mapPayloadEmailToSweegoEmail { replyTo := some (.str ("string")) }
        ("default@x.y") ("Default") false =
      .ok { provider := ("sweego"), channel := ("email"), recipients := []
            fromAddress := { email := ("default@x.y"), name := some ("Default") }
            subject := (""), reply_to := some { email := ("string"), name := none } } := by
  constructor
  · rfl
  · rfl

/-- C3 counterexample: with two bracket groups the greedy `.*` makes
the regex keep the LAST group, so 'a <x@y> <z@w>' yields 'z@w', not the
claimed 'x@y'. -/
theorem c3_counterexample :
    extractEmailFromAddressString ("a <x@y> <z@w>") = ("z@w") ∧
    (("z@w") : String) ≠ ("x@y") := by
  constructor
  · rfl
  · decide

/-- C3 (amended): `extractEmailFromAddressString` returns the trimmed
whole string when no angle bracket exists; when the trimmed string
decomposes as `a ++ '<' :: g ++ '>' :: t` with the shown pair being the
LAST `<`-before-`>` pair (no `<` in g, no `>` in t; no line
terminators), the greedy regex keeps that group's content together with
the text after the `>`, trimmed — not the first group.  In particular
'a <x@y> <z@w>' yields 'z@w'. -/
theorem c3_amended :
    (∀ s : String, '<' ∉ s.data → '>' ∉ s.data →
      extractEmailFromAddressString s = jsStrTrim s) ∧
    (∀ (s : String) (a g t : List Char),
      jsTrim s.data = a ++ '<' :: (g ++ '>' :: t) →
      (∀ c ∈ jsTrim s.data, isLineTerm c = false) →
      '<' ∉ g → '>' ∉ t →
      extractEmailFromAddressString s = ⟨jsTrim (g ++ t)⟩) ∧
    extractEmailFromAddressString ("a <x@y> <z@w>") = ("z@w") := by
  refine ⟨?_, ?_, rfl⟩
  · intro s h1 _
    exact extractEmail_no_brackets s h1
  · intro s a g t hd ht hg1 ht2
    exact extractEmail_lastGroup s a g t hd ht hg1 ht2

/-- C3 witness: the amended characterisation applied to a concrete
string whose last bracket pair is followed by trailing text. -/
theorem c3_witness : extractEmailFromAddressString ("q <u@v> w") = ("u@v w") := by
  have h := c3_amended.2.1 ("q <u@v> w") (['q', ' ']) (['u', '@', 'v']) ([' ', 'w'])
    (by decide) (by decide) (by decide) (by decide)
  exact h.trans (by rfl)

/-- C4 counterexample: the bracket-free string " a@b " has surrounding
whitespace, so `extractNameFromAddressString` changes it (to "a@b") and
the parsed address carries `name = some "a@b"`, not the claimed
`name: undefined`. -/
theorem c4_counterexample :
    mapFromAddress (some (.str (" a@b "))) ("N") ("A") =
      { email := ("a@b"), name := some ("a@b") } ∧
    ({ email := ("a@b"), name := some ("a@b") } : EmailAddress).name ≠ none := by
  constructor
  · rfl
  · decide

/-- C4 (amended): for every non-empty bracket-free address string,
parsing as the single `to` or `from` value yields
`email = trimmed string`, and the name is absent exactly when
`extractNameFromAddressString s = s`; strings with surrounding
whitespace or quotes are changed by the name pass, so they yield a name
(the stripped remainder) rather than `undefined`.  The empty string
never reaches the parser (it is falsy). -/
theorem c4_amended :
    (∀ s : String, s ≠ ("") → '<' ∉ s.data → '>' ∉ s.data →
      (∀ dfn dfa : String, mapFromAddress (some (.str s)) dfn dfa =
        { email := jsStrTrim s
          name := if extractNameFromAddressString s = s then none
                  else some (extractNameFromAddressString s) }) ∧
      mapAddresses (.one (.str s)) =
        [{ email := jsStrTrim s
           name := if extractNameFromAddressString s = s then none
                   else some (extractNameFromAddressString s) }]) ∧
    mapFromAddress (some (.str (" a@b "))) ("N") ("A") =
      { email := ("a@b"), name := some ("a@b") } := by
  refine ⟨?_, rfl⟩
  intro s hne h1 _
  have he : extractEmailFromAddressString s = jsStrTrim s := extractEmail_no_brackets s h1
  constructor
  · intro dfn dfa
    simp only [mapFromAddress, if_neg hne]
    unfold parseAddrString
    rw [he]
  · simp only [mapAddresses, if_neg hne]
    unfold parseAddrString
    rw [he]

/-- C4 witness: the amended theorem applied to a plain already-trimmed
bracket-free address string. -/
theorem c4_witness :
    mapFromAddress (some (.str ("bob@x.y"))) ("N") ("A") =
      { email := ("bob@x.y"), name := none } := by
  have h := (c4_amended.1 ("bob@x.y") (by decide) (by decide) (by decide)).1 ("N") ("A")
  exact h.trans (by rfl)

/-- C5 counterexample: a structured address object's `address` is NOT
copied unchanged — `extractEmailFromAddressString` is applied, so
`{address: " <a@b> "}` maps to email "a@b". -/
theorem c5_counterexample :
    mapAddresses (.one (.obj { address := (" <a@b> "), name := some ("N") })) =
      [{ email := ("a@b"), name := some ("N") }] ∧
    (("a@b") : String) ≠ (" <a@b> ") := by
  constructor
  · rfl
  · decide

/-- C5 (amended): for every structured address object `{address, name}`
in `to` (single or in a list, hence also reply-to lists), the
normalised email is `extractEmailFromAddressString address` — the same
bracket-stripping and trimming pass applied to address strings — and
the name is dropped exactly when it equals the RAW address string; the
same holds for `from`. -/
theorem c5_amended :
    (∀ a : JAddr, mapAddresses (.one (.obj a)) =
      [{ email := extractEmailFromAddressString a.address
         name := if a.name = some a.address then none else a.name }]) ∧
    (∀ l : List AddrVal, mapAddresses (.many l) = l.map mapAddrVal) ∧
    (∀ a : JAddr, mapAddrVal (.obj a) =
      { email := extractEmailFromAddressString a.address
        name := if a.name = some a.address then none else a.name }) ∧
    (∀ (a : JAddr) (dfn dfa : String), mapFromAddress (some (.obj a)) dfn dfa =
      { email := extractEmailFromAddressString a.address
        name := if a.name = some a.address then none else a.name }) :=
  ⟨fun _ => rfl, fun _ => rfl, fun _ => rfl, fun _ _ _ => rfl⟩

/-- C6: when any attachment lacks a filename or content, or has content
that is neither a string nor a Buffer, the send fails during mapping
with one of the two InvalidAttachment messages and status 400, and no
HTTP POST is issued (the first component of the model, the POSTed body,
is `none`); attachments with a (non-empty) string content are encoded
to UTF-8 bytes and Buffer content passes through unchanged. -/
theorem c6_attachments :
    (∀ (dfa dfn : String) (dry : Bool) (msg : Message) (resp : HttpResponse)
        (l : List AttachIn), msg.attachments = some l →
      (∃ a ∈ l, a.filename = none ∨ a.content = none ∨ a.content = some .other) →
      (sendEmailModel dfa dfn dry msg resp).1 = none ∧
      ∃ m, (sendEmailModel dfa dfn dry msg resp).2 = .thrown m 400 ∧
        (m = ("Attachment is missing filename or content") ∨
          m = ("Attachment content must be a string or a buffer"))) ∧
    (∀ (fn s : String), fn ≠ ("") → s ≠ ("") →
      mapOneAttachment { filename := some fn, content := some (.str s) } =
        .ok { filename := fn, content := utf8Encode s }) ∧
    (∀ (fn : String) (b : List Nat), fn ≠ ("") →
      mapOneAttachment { filename := some fn, content := some (.buf b) } =
        .ok { filename := fn, content := b }) := by
  refine ⟨?_, ?_, ?_⟩
  · intro dfa dfn dry msg resp l hatt hbad
    obtain ⟨m, hm, hdisj⟩ := mapAttachList_bad l hbad
    have herr : mapAttachments msg.attachments = .error (.api m 400) := by
      rw [hatt]
      simp only [mapAttachments]
      rw [hm]
    have hp := mapPayload_error_of_attachments msg dfa dfn dry _ herr
    unfold sendEmailModel
    rw [hp]
    exact ⟨rfl, m, rfl, hdisj⟩
  · intro fn s hfn hs
    dsimp only [mapOneAttachment]
    rw [if_neg hfn, if_neg hs]
  · intro fn b hfn
    dsimp only [mapOneAttachment]
    rw [if_neg hfn]

/-- C6 witness: a message whose only attachment has no filename is
rejected with no POST issued. -/
theorem c6_witness :
    (sendEmailModel ("d@x.y") ("D") false
        { attachments := some [{ filename := none, content := some (.str ("x")) }] }
        { status := 200, statusText := ("OK")
          successBody := { channel := (""), provider := (""), swg_uids := [], transaction_id := ("") }
          detail := none }).1 = none :=
  (c6_attachments.1 ("d@x.y") ("D") false
    { attachments := some [{ filename := none, content := some (.str ("x")) }] }
    { status := 200, statusText := ("OK")
      successBody := { channel := (""), provider := (""), swg_uids := [], transaction_id := ("") }
      detail := none }
    [{ filename := none, content := some (.str ("x")) }] rfl (by decide)).1

/-- C7: when the message has no `from`, the assembled payload's `from`
is exactly {email: defaultFromAddress, name: defaultFromName}, the
configuration values the adapter captured at construction. -/
theorem c7_default_from :
    (∀ dfn dfa : String, mapFromAddress none dfn dfa = { email := dfa, name := some dfn }) ∧
    (∀ (msg : Message) (dfa dfn : String) (dry : Bool) (p : WirePayload),
      msg.fromAddress = none →
      mapPayloadEmailToSweegoEmail msg dfa dfn dry = .ok p →
      p.fromAddress = { email := dfa, name := some dfn }) := by
  refine ⟨fun _ _ => rfl, ?_⟩
  intro msg dfa dfn dry p hfrom hok
  rw [mapPayload_from msg dfa dfn dry p hok, hfrom]
  rfl

/-- C7 witness: the empty message assembled with concrete defaults. -/
theorem c7_witness :
    ({ provider := ("sweego"), channel := ("email"), recipients := []
       fromAddress := { email := ("a@b.c"), name := some ("N") }
       subject := ("") } : WirePayload).fromAddress =
      { email := ("a@b.c"), name := some ("N") } :=
  c7_default_from.2 {} ("a@b.c") ("N") false
    { provider := ("sweego"), channel := ("email"), recipients := []
      fromAddress := { email := ("a@b.c"), name := some ("N") }
      subject := ("") } rfl (by rfl)

/-- C8: a (mappable) string-content attachment is encoded to the UTF-8
bytes of the string with the filename carried over unchanged, and
decoding those bytes yields the original string again (encode-decode
round trip). -/
theorem c8_string_attachment :
    (∀ (fn s : String), fn ≠ ("") → s ≠ ("") →
      mapOneAttachment { filename := some fn, content := some (.str s) } =
        .ok { filename := fn, content := utf8Encode s }) ∧
    (∀ s : String, utf8DecodeString (utf8Encode s) = some s) := by
  constructor
  · intro fn s hfn hs
    dsimp only [mapOneAttachment]
    rw [if_neg hfn, if_neg hs]
  · exact utf8_roundtrip

/-- C8 witness: a concrete attachment; "hi" encodes to [104, 105] and
decodes back. -/
theorem c8_witness :
    mapOneAttachment { filename := some ("a.txt"), content := some (.str ("hi")) } =
      .ok { filename := ("a.txt"), content := [104, 105] } ∧
    utf8DecodeString ([104, 105]) = some ("hi") := by
  constructor
  · exact (c8_string_attachment.1 ("a.txt") ("hi") (by decide) (by decide)).trans (by rfl)
  · have h := c8_string_attachment.2 ("hi")
    rw [show utf8Encode ("hi") = [104, 105] from rfl] at h
    exact h

/-- C9: presence of attachment fields is tested by JS truthiness, so an
empty-string content (or empty-string filename) raises the
InvalidAttachment error even though the field is present; a zero-byte
string attachment can never be sent. -/
theorem c9_empty_attachment :
    (∀ fn : String, mapOneAttachment { filename := some fn, content := some (.str ("")) } =
      .error (.api ("Attachment is missing filename or content") 400)) ∧
    (∀ c : Option AttContent, mapOneAttachment { filename := some (""), content := c } =
      .error (.api ("Attachment is missing filename or content") 400)) ∧
    (∀ fn : String,
      mapAttachments (some [{ filename := some fn, content := some (.str ("")) }]) =
        .error (.api ("Attachment is missing filename or content") 400)) := by
  have key : ∀ fn : String,
      mapOneAttachment { filename := some fn, content := some (.str ("")) } =
        .error (.api ("Attachment is missing filename or content") 400) := by
    intro fn
    by_cases hfn : fn = ""
    · dsimp only [mapOneAttachment]
      rw [if_pos hfn]
    · dsimp only [mapOneAttachment]
      rw [if_neg hfn]
      rfl
  refine ⟨key, ?_, ?_⟩
  · intro c
    cases c with
    | none => rfl
    | some c => rfl
  · intro fn
    have h2 : mapAttachList [{ filename := some fn, content := some (.str ("")) }] =
        .error (.api ("Attachment is missing filename or content") 400) := by
      simp only [mapAttachList]
      rw [key fn]
    simp only [mapAttachments]
    rw [h2]

/-- C10: a non-200 response whose body has no (or a null) detail list
produces exactly the base message with nothing appended, still carrying
the HTTP status code. -/
theorem c10_no_detail :
    ∀ (dfa dfn : String) (dry : Bool) (msg : Message) (resp : HttpResponse) (p : WirePayload),
      mapPayloadEmailToSweegoEmail msg dfa dfn dry = .ok p →
      resp.status ≠ 200 → resp.detail = none →
      (sendEmailModel dfa dfn dry msg resp).2 =
        .thrown (("Error sending email: ") ++ toString resp.status ++ (" ") ++
          resp.statusText ++ (".")) resp.status := by
  intro dfa dfn dry msg resp p hok hstat hdet
  unfold sendEmailModel
  rw [hok]
  dsimp only
  rw [if_neg hstat]
  unfold sweegoFormatError
  rw [hdet]
  rfl

/-- C10 witness: a concrete 503 response with no detail field. -/
theorem c10_witness :
    (sendEmailModel ("d@x.y") ("D") false {}
        { status := 503, statusText := ("Service Unavailable")
          successBody := { channel := (""), provider := (""), swg_uids := [], transaction_id := ("") }
          detail := none }).2 =
      .thrown ("Error sending email: 503 Service Unavailable.") 503 := by
  have h := c10_no_detail ("d@x.y") ("D") false {}
    { status := 503, statusText := ("Service Unavailable")
      successBody := { channel := (""), provider := (""), swg_uids := [], transaction_id := ("") }
      detail := none }
    { provider := ("sweego"), channel := ("email"), recipients := []
      fromAddress := { email := ("d@x.y"), name := some ("D") }, subject := ("") }
    (by rfl) (by decide) rfl
  exact h.trans (by rfl)

end SweegoAdapter
